import Mathlib

/- Shallow embedding of the OpenHantek device-control engine
(`src/openhantek/src/hantek/hantekdsocontrol.cpp`, class `HantekDsoControl`).

Conventions: C++ `double` is modelled as `ℚ` (the source only ever computes
ratios of integer constants here, so rational arithmetic is exact), C++
`unsigned int` as `ℕ` with an explicit `% 2 ^ 32` where wraparound matters,
and fallible paths as `Option`/an error-code sum.  Qt signal emissions and
the USB transport are outside the model: every setter below is its
`isConnected` branch, and command buffers are kept as plain state fields. -/

namespace HantekModel

/-- `HANTEK_CHANNELS`: the channel count, fixed at 2. -/
def HANTEK_CHANNELS : ℕ := 2

/-- `UINT_MAX` used as the roll-mode sentinel record length. -/
def UINT_MAX : ℕ := 4294967295

/-- Which of the two `ControlSamplerateLimits` records
`settings.samplerate.limits` points to (`&spec.single` or `&spec.multi`). -/
inductive RateMode
  | single
  | multi
deriving DecidableEq

/-- `Hantek::ControlSamplerateLimits`: per-rate-mode samplerate constants.
`recordLengths` is the QList, modelled as the index → value map it denotes
(out-of-range reads, undefined behaviour in the source, return 0). -/
structure ControlSamplerateLimits where
  base : ℚ
  max : ℚ
  maxDownsampler : ℕ
  recordLengths : ℕ → ℕ

/-- The DSO-2090 single-channel limits (the `default:` model row of the
constructor's specification switch). -/
def single2090 : ControlSamplerateLimits where
  base := 50000000
  max := 50000000
  maxDownsampler := 131072
  recordLengths := fun i =>
    match i with
    | 0 => UINT_MAX
    | 1 => 10240
    | 2 => 32768
    | _ => 0

/-- The DSO-2090 fast-rate (multi) limits. -/
def multi2090 : ControlSamplerateLimits where
  base := 100000000
  max := 100000000
  maxDownsampler := 131072
  recordLengths := fun i =>
    match i with
    | 0 => UINT_MAX
    | 1 => 20480
    | 2 => 65536
    | _ => 0

/-- `specification.bufferDividers` for the DSO-2090: `1000, 1, 1`. -/
def bufferDividers2090 : ℕ → ℚ
  | 0 => 1000
  | 1 => 1
  | 2 => 1
  | _ => 0

/-- Dereference a `RateMode` to the DSO-2090 limits record it points to. -/
def limits2090 : RateMode → ControlSamplerateLimits
  | RateMode.single => single2090
  | RateMode.multi => multi2090

/-- One iteration of the loop in `HantekDsoControl::calculateTriggerPoint`:
`if (result & bitValue) result ^= bitValue - 1;` at bit position `i`. -/
def triggerPointStep (result : ℕ) (i : ℕ) : ℕ :=
  if result.testBit i then result ^^^ (2 ^ i - 1) else result

/-- `HantekDsoControl::calculateTriggerPoint`: for each set bit of the
running value, from the least significant bit upwards, all lower bits are
inverted.  The C loop runs `bitValue` over all 32 bits of `unsigned int`. -/
def calculateTriggerPoint (value : ℕ) : ℕ :=
  (List.range 32).foldl triggerPointStep value

/-- The standard binary-reflected Gray code `x ^ (x >> 1)`; used to state
what `calculateTriggerPoint` actually inverts. -/
def grayEncode (x : ℕ) : ℕ := x ^^^ (x >>> 1)

/-- Which bulk command implements set-samplerate for the model
(`specification.command.bulk.setSamplerate`), selecting the branch of the
switch inside `getBestSamplerate`. -/
inductive SamplerateCmdFamily
  | settriggerandsamplerate
  | csettriggerorsamplerate
  | esettriggerorsamplerate
  | unassigned
deriving DecidableEq

/-- The slice of the per-model specification that `getBestSamplerate`
reads. -/
structure DeviceSpec where
  single : ControlSamplerateLimits
  multi : ControlSamplerateLimits
  bufferDividers : ℕ → ℚ
  samplerateCmd : SamplerateCmdFamily

/-- The DSO-2090 specification slice. -/
def spec2090 : DeviceSpec where
  single := single2090
  multi := multi2090
  bufferDividers := bufferDividers2090
  samplerateCmd := SamplerateCmdFamily.settriggerandsamplerate

/-- The switch of `HantekDsoControl::getBestSamplerate` that snaps the
continuous ideal downsampler to a legal value for the model's samplerate
command; `none` is the `default: return 0.0;` case. -/
def snapDownsampler (family : SamplerateCmdFamily) (maximum : Bool)
    (bestDownsampler : ℚ) : Option ℚ :=
  match family with
  | SamplerateCmdFamily.settriggerandsamplerate =>
    some
      (if (maximum = true ∧ bestDownsampler ≤ 5) ∨
          (maximum = false ∧ bestDownsampler < 6) then
        if maximum then
          if 2 < (⌈bestDownsampler⌉ : ℚ) then 5 else (⌈bestDownsampler⌉ : ℚ)
        else
          if 2 < (⌊bestDownsampler⌋ : ℚ) ∧ (⌊bestDownsampler⌋ : ℚ) < 5 then 2
          else (⌊bestDownsampler⌋ : ℚ)
      else
        if 2 * 0x10001 <
            (if maximum then (⌈bestDownsampler / 2⌉ : ℚ) * 2
             else (⌊bestDownsampler / 2⌋ : ℚ) * 2) then
          2 * 0x10001
        else
          if maximum then (⌈bestDownsampler / 2⌉ : ℚ) * 2
          else (⌊bestDownsampler / 2⌋ : ℚ) * 2)
  | SamplerateCmdFamily.csettriggerorsamplerate =>
    some (if maximum then (⌈bestDownsampler⌉ : ℚ) else (⌊bestDownsampler⌋ : ℚ))
  | SamplerateCmdFamily.esettriggerorsamplerate =>
    some (if maximum then (⌈bestDownsampler⌉ : ℚ) else (⌊bestDownsampler⌋ : ℚ))
  | SamplerateCmdFamily.unassigned => none

/-- `HantekDsoControl::getBestSamplerate(samplerate, fastRate, maximum,
&downsampler)`.  Returns the pair (best samplerate, written downsampler);
the source's `*downsampler` starts as the caller's 0 and the early-error
returns leave it untouched, which the pair's 0 reproduces. -/
def getBestSamplerate (spec : DeviceSpec) (recordLengthId : ℕ)
    (samplerate : ℚ) (fastRate maximum : Bool) : ℚ × ℕ :=
  if samplerate ≤ 0 then (0, 0)
  else
    let limits := if fastRate then spec.multi else spec.single
    let divider := spec.bufferDividers recordLengthId
    let bestDownsampler : ℚ := limits.base / divider / samplerate
    if bestDownsampler < 1 ∧ (samplerate ≤ limits.max / divider ∨ maximum = false) then
      (limits.max / divider, 0)
    else
      match snapDownsampler spec.samplerateCmd maximum bestDownsampler with
      | none => (0, 0)
      | some d1 =>
        let d2 : ℚ :=
          if (limits.maxDownsampler : ℚ) < d1 then (limits.maxDownsampler : ℚ) else d1
        (limits.base / d2 / divider, (⌊d2⌋).toNat)

/-- `Dso::ErrorCode` (declared in the missing header `dso.h`; the names and
their meaning are those of the spec's error-code list). -/
inductive ErrorCode
  | ERROR_NONE
  | ERROR_UNSUPPORTED
  | ERROR_CONNECTION
  | ERROR_PARAMETER
deriving DecidableEq

/-- Modelled from the spec: the used-channels wire codes `USED_CH1`,
`USED_CH2`, `USED_CH1CH2`, `BUSED_CH2` live in the missing header; their
numeric values are unknown, so they are kept as distinct symbols. -/
inductive UsedChannelsCode
  | USED_CH1
  | USED_CH2
  | USED_CH1CH2
  | BUSED_CH2
deriving DecidableEq

/-- The low 16 bits of an integer, as written into a 16-bit command field. -/
def toU16 (z : ℤ) : ℕ := (z % 65536).toNat

/-- The controller settings relevant to the samplerate/channel claims, plus
the fields of the `BulkSetTriggerAndSamplerate` encoder that
`updateSamplerate` and `setChannelUsed` write on the DSO-2090
(`cmd*` fields; `cmdDownsamplerValue` keeps the wire bits of the 16-bit
downsampler word). -/
structure ControlState where
  limitsMode : RateMode
  downsampler : ℕ
  current : ℚ
  targetSamplerate : ℚ
  targetDuration : ℚ
  targetSamplerateSet : Bool
  recordLengthId : ℕ
  ch0used : Bool
  ch1used : Bool
  usedChannels : ℕ
  cmdDownsamplingMode : Bool
  cmdSamplerateId : ℕ
  cmdDownsamplerValue : ℕ
  cmdFastRate : Bool
  cmdUsedChannels : UsedChannelsCode
deriving DecidableEq

/-- The settings the DSO-2090 constructor leaves behind: single limits,
downsampler 1, current rate 1e8, record length id 1, no channel used.  The
`target` pair is not initialised by the constructor; it is modelled as
zero / false, and no theorem below depends on it before a setter stores it.
The command-buffer fields start from the zeroed encoder. -/
def initState2090 : ControlState where
  limitsMode := RateMode.single
  downsampler := 1
  current := 100000000
  targetSamplerate := 0
  targetDuration := 0
  targetSamplerateSet := false
  recordLengthId := 1
  ch0used := false
  ch1used := false
  usedChannels := 0
  cmdDownsamplingMode := false
  cmdSamplerateId := 0
  cmdDownsamplerValue := 0
  cmdFastRate := false
  cmdUsedChannels := UsedChannelsCode.USED_CH1

/-- The `BULK_SETTRIGGERANDSAMPLERATE` arm of
`HantekDsoControl::updateSamplerate(downsampler, fastRate)` followed by the
shared settings update: encodes samplerate id / downsampler word /
downsampling mode, hard-codes the wire fast-rate flag to `false`
(`setFastRate(false /*fastRate*/)`), flips `settings.samplerate.limits`
when the fast-rate mode changed, and recomputes
`settings.samplerate.current`.  The `setPretriggerPosition` re-write and
the emitted signals touch no field of this model. -/
def updateSamplerate2090 (st : ControlState) (downsampler : ℕ) (fastRate : Bool) :
    ControlState :=
  let limits := if fastRate then multi2090 else single2090
  let enc : ℕ × ℕ × ℕ × Bool :=
    if downsampler ≤ 5 then
      if downsampler = 0 ∧ limits.max ≤ limits.base then
        (downsampler, 1, 0, false)
      else if downsampler ≤ 2 then
        (downsampler, downsampler, 0, false)
      else
        (5, 3, 0xffff, false)
    else
      (downsampler - downsampler % 2, 0,
        toU16 (0x10001 - ((downsampler - downsampler % 2 : ℕ) >>> 1 : ℕ)), true)
  let limitsMode' : RateMode :=
    if ¬(fastRate = true ↔ st.limitsMode = RateMode.multi) then
      (if fastRate then RateMode.multi else RateMode.single)
    else st.limitsMode
  let current' : ℚ :=
    if enc.1 ≠ 0 then
      (limits2090 limitsMode').base / bufferDividers2090 st.recordLengthId / enc.1
    else
      (limits2090 limitsMode').max / bufferDividers2090 st.recordLengthId
  { st with
    limitsMode := limitsMode'
    downsampler := enc.1
    current := current'
    cmdSamplerateId := enc.2.1
    cmdDownsamplerValue := enc.2.2.1
    cmdDownsamplingMode := enc.2.2.2
    cmdFastRate := false }

/-- `HantekDsoControl::setSamplerate(samplerate)` on a connected DSO-2090:
stores the target, derives the fast-rate flag, asks the solver for the
nearest not-lower rate (`maximum=false`) and applies it. -/
def setSamplerate2090 (st : ControlState) (samplerate : ℚ) : ControlState :=
  let samplerate' := if samplerate = 0 then st.targetSamplerate else samplerate
  let st1 :=
    if samplerate = 0 then st
    else { st with targetSamplerate := samplerate, targetSamplerateSet := true }
  let fastRate : Bool :=
    decide (st1.usedChannels ≤ 1 ∧
      single2090.max / bufferDividers2090 st1.recordLengthId < samplerate')
  let r := getBestSamplerate spec2090 st1.recordLengthId samplerate' fastRate false
  updateSamplerate2090 st1 r.2 fastRate

/-- `HantekDsoControl::setRecordTime(duration)` on a connected DSO-2090:
stores the target duration, computes the maximum samplerate still giving
that duration from the *single* limits' record length, derives the
fast-rate flag, asks the solver for the nearest not-higher rate
(`maximum=true`) and applies it. -/
def setRecordTime2090 (st : ControlState) (duration : ℚ) : ControlState :=
  let duration' := if duration = 0 then st.targetDuration else duration
  let st1 :=
    if duration = 0 then st
    else { st with targetDuration := duration, targetSamplerateSet := false }
  let maxSamplerate : ℚ := (single2090.recordLengths st1.recordLengthId : ℚ) / duration'
  let fastRate : Bool :=
    decide (st1.usedChannels ≤ 1 ∧
      multi2090.base / bufferDividers2090 st1.recordLengthId ≤ maxSamplerate)
  let r := getBestSamplerate spec2090 st1.recordLengthId maxSamplerate fastRate true
  updateSamplerate2090 st1 r.2 fastRate

/-- `HantekDsoControl::setChannelUsed(channel, used)` on a connected
DSO-2090: updates the per-channel used flag, recounts `usedChannels`,
re-encodes the used-channels command field.  When the fast-rate
availability changes it calls `updateSamplerateLimits()`, which only emits
a signal — `settings.samplerate.limits` is *not* touched. -/
def setChannelUsed2090 (st : ControlState) (channel : ℕ) (used : Bool) :
    ErrorCode × ControlState :=
  if HANTEK_CHANNELS ≤ channel then (ErrorCode.ERROR_PARAMETER, st)
  else
    let st1 :=
      if channel = 0 then { st with ch0used := used } else { st with ch1used := used }
    let channelCount : ℕ :=
      (if st1.ch0used then 1 else 0) + (if st1.ch1used then 1 else 0)
    let code :=
      if st1.ch1used then
        if st1.ch0used then UsedChannelsCode.USED_CH1CH2
        else UsedChannelsCode.USED_CH2
      else UsedChannelsCode.USED_CH1
    (ErrorCode.ERROR_NONE,
      { st1 with usedChannels := channelCount, cmdUsedChannels := code })

/-- States of the DSO-2090 controller reachable from the constructor's
state through the public setters modelled here. -/
inductive Reachable2090 : ControlState → Prop
  | init : Reachable2090 initState2090
  | channelUsed {s} (c : ℕ) (u : Bool) :
      Reachable2090 s → Reachable2090 (setChannelUsed2090 s c u).2
  | samplerate {s} (hz : ℚ) :
      Reachable2090 s → Reachable2090 (setSamplerate2090 s hz)
  | recordTime {s} (t : ℚ) :
      Reachable2090 s → Reachable2090 (setRecordTime2090 s t)

/-- The quantisation step of `HantekDsoControl::setOffset`:
`offsetValue = offset * (maximum - minimum) + minimum + 0.5` truncated by
the conversion to `unsigned short int` (truncation toward zero equals the
floor for the non-negative values arising here). -/
def quantizeOffset (minimum maximum : ℕ) (offset : ℚ) : ℕ :=
  (⌊offset * ((maximum : ℚ) - (minimum : ℚ)) + (minimum : ℚ) + 1 / 2⌋).toNat

/-- The read-back of `setOffset`:
`offsetReal = (double)(offsetValue - minimum) / (maximum - minimum)`. -/
def offsetRealOf (minimum maximum : ℕ) (offsetValue : ℕ) : ℚ :=
  ((offsetValue : ℚ) - (minimum : ℚ)) / ((maximum : ℚ) - (minimum : ℚ))

/-- The offset-relevant effect of `HantekDsoControl::setOffset(channel,
offset)` for one channel with decoded calibration bounds
`(minimum, maximum)`: the stored pair (`offsetValue` written into the
`SETOFFSET` control command, `settings.voltage[channel].offsetReal`). -/
def setOffsetStored (minimum maximum : ℕ) (offset : ℚ) : ℕ × ℚ :=
  (quantizeOffset minimum maximum offset,
    offsetRealOf minimum maximum (quantizeOffset minimum maximum offset))

/-- Modelled from the spec: `QString::split(' ',
QString::SkipEmptyParts)` (Qt library code): cut the string at every
space and drop the empty parts.  Written as a structural recursion over
the characters so concrete inputs evaluate. -/
def splitCmdAux : List Char → List Char → List String
  | [], acc => if acc = [] then [] else [String.mk acc.reverse]
  | c :: cs, acc =>
    if c = ' ' then
      if acc = [] then splitCmdAux cs []
      else String.mk acc.reverse :: splitCmdAux cs []
    else splitCmdAux cs (c :: acc)

/-- The token list `stringCommand` works on. -/
def splitCmd (s : String) : List String :=
  splitCmdAux s.toList []

/-- Modelled from the spec: `hexParse` (from `utils/printutils.h`, not in
the sources) reads hexadecimal digits of a token into bytes; only its
one-byte use on the opcode token matters here, giving the value of the
first two hex digits (a single digit gives that digit, no digit leaves the
zero-initialised byte). -/
def hexDigitVal (c : Char) : Option ℕ :=
  if '0' ≤ c ∧ c ≤ '9' then some (c.toNat - '0'.toNat)
  else if 'a' ≤ c ∧ c ≤ 'f' then some (c.toNat - 'a'.toNat + 10)
  else if 'A' ≤ c ∧ c ≤ 'F' then some (c.toNat - 'A'.toNat + 10)
  else none

/-- Modelled from the spec: the single opcode byte `hexParse` extracts from
the first data token. -/
def hexByte (s : String) : ℕ :=
  match s.toList.filterMap hexDigitVal with
  | [] => 0
  | [d] => d
  | d1 :: d2 :: _ => d1 * 16 + d2

/-- `BULK_COUNT` per the spec's bulk opcode enum (12 opcodes). -/
def BULK_COUNT : ℕ := 12

/-- `CONTROLINDEX_COUNT` per the spec's control opcode enum (6 entries). -/
def CONTROLINDEX_COUNT : ℕ := 6

/-- The command/pending stores that `stringCommand` can touch.
`bulkExists i` says whether `command[i]` was instantiated for the model
(the source dereferences it without a null check); `controlCodes` is the
initialised prefix of the `controlCode` table — its uninitialised tail is
modelled as never matching.  `bulkData`/`controlData` are the encoder
buffers. -/
structure CmdState where
  bulkExists : List Bool
  bulkPending : List Bool
  bulkData : List (List ℕ)
  controlCodes : List ℕ
  controlPending : List Bool
  controlData : List (List ℕ)
deriving DecidableEq

/-- Modelled from the spec: the bytes `hexParse` writes into an encoder
buffer from the joined data tokens (exact byte semantics are immaterial to
the claims, which are about the untouched-state paths). -/
def hexParseBytes (s : String) : List ℕ :=
  (s.toList.filterMap hexDigitVal).foldr
    (fun d acc => match acc with
      | [] => [d]
      | _ => d :: acc) []

/-- `HantekDsoControl::stringCommand` on the token list produced by the
split.  `none` marks the paths whose behaviour is undefined in the source:
`commandParts[2]` read with only two tokens, and
`command[commandCode]->data()` with `commandCode` equal to `BULK_COUNT`
(one past the array) or naming a command the model never instantiated
(null dereference). -/
def stringCommandTokens (st : CmdState) (commandParts : List String) :
    Option (ErrorCode × CmdState) :=
  match commandParts with
  | [] => some (ErrorCode.ERROR_PARAMETER, st)
  | head :: tail =>
    if head = "send" then
      match tail with
      | [] => some (ErrorCode.ERROR_PARAMETER, st)
      | sub :: rest =>
        if sub = "bulk" then
          match rest with
          | [] => none
          | tok :: _ =>
            let commandCode := hexByte tok
            if BULK_COUNT < commandCode then some (ErrorCode.ERROR_UNSUPPORTED, st)
            else if st.bulkExists.getD commandCode false = false then none
            else
              some (ErrorCode.ERROR_NONE,
                { st with
                  bulkData := st.bulkData.set commandCode
                    (hexParseBytes (String.intercalate " " rest))
                  bulkPending := st.bulkPending.set commandCode true })
        else if sub = "control" then
          match rest with
          | [] => none
          | tok :: rest' =>
            let controlCode := hexByte tok
            match st.controlCodes.findIdx? (fun c => c = controlCode) with
            | none => some (ErrorCode.ERROR_UNSUPPORTED, st)
            | some control =>
              some (ErrorCode.ERROR_NONE,
                { st with
                  controlData := st.controlData.set control
                    (hexParseBytes (String.intercalate " " rest'))
                  controlPending := st.controlPending.set control true })
        else some (ErrorCode.ERROR_UNSUPPORTED, st)
    else some (ErrorCode.ERROR_UNSUPPORTED, st)

/-- `HantekDsoControl::stringCommand` (connected branch) on the raw
string. -/
def stringCommand (st : CmdState) (command : String) : Option (ErrorCode × CmdState) :=
  stringCommandTokens st (splitCmd command)

/-- The scalar sample-count pipeline of `HantekDsoControl::getSamples`
after a successful bulk read of `received` bytes (`dataLength =
errorCode`): recompute `totalSampleCount` from the received byte count,
then for normal mode divide by `HANTEK_CHANNELS` and, on the DSO-6022BE,
subtract the fixed head/tail drop `0x410 + 0x3F0` in 32-bit unsigned
arithmetic. -/
def decodedSampleCount (model6022 fastRate : Bool) (sampleSize received : ℕ) : ℕ :=
  let dataLength := received
  let totalSampleCount := if 8 < sampleSize then dataLength / 2 else dataLength
  if fastRate then totalSampleCount
  else
    let sampleCount := totalSampleCount / HANTEK_CHANNELS
    if model6022 then (sampleCount + 2 ^ 32 - (0x410 + 0x3F0)) % 2 ^ 32
    else sampleCount

/-- One sample conversion of the 8-bit non-6022BE normal-mode decode:
`(dataBuf / voltageLimit - offsetReal) * gainStep`. -/
def convertSample8 (raw : ℕ) (voltageLimit gainStep offsetReal : ℚ) : ℚ :=
  ((raw : ℚ) / voltageLimit - offsetReal) * gainStep

/-- The normal-mode per-channel conversion loop (8-bit, non-6022BE):
`realPosition` counts written samples, `bufferPosition` steps by
`HANTEK_CHANNELS` and wraps modulo `totalSampleCount` when it reaches it.
The result vector is only written at indices below the remaining count. -/
def normalLoopGo (data : List ℕ) (totalSampleCount : ℕ)
    (voltageLimit gainStep offsetReal : ℚ) :
    ℕ → ℕ → ℕ → List ℚ → List ℚ
  | 0, _, _, acc => acc
  | n + 1, realPosition, bufferPosition, acc =>
    let bp :=
      if totalSampleCount ≤ bufferPosition then bufferPosition % totalSampleCount
      else bufferPosition
    normalLoopGo data totalSampleCount voltageLimit gainStep offsetReal n
      (realPosition + 1) (bp + HANTEK_CHANNELS)
      (acc.set realPosition
        (convertSample8 (data.getD bp 0) voltageLimit gainStep offsetReal))

/-- The normal-mode decode of one used channel (8-bit, non-6022BE) in
`getSamples`: grow — never shrink — the channel's result vector
(`if (result.data[channel].size() < sampleCount) resize`, `std::vector`
zero-fills the new tail), then run the conversion loop from
`triggerPoint * 2 + (HANTEK_CHANNELS - 1 - channel)`. -/
def convertChannelNormal (data : List ℕ) (totalSampleCount sampleCount : ℕ)
    (triggerPoint channel : ℕ) (voltageLimit gainStep offsetReal : ℚ)
    (old : List ℚ) : List ℚ :=
  let grown :=
    if old.length < sampleCount then old ++ List.replicate (sampleCount - old.length) 0
    else old
  normalLoopGo data totalSampleCount voltageLimit gainStep offsetReal
    sampleCount 0 (triggerPoint * 2 + (HANTEK_CHANNELS - 1 - channel)) grown

/-- The downsampler values the DSO-2090 samplerate command can actually
carry, read off the `BULK_SETTRIGGERANDSAMPLERATE` arm of
`updateSamplerate`: the fast samplerate ids 1, 2 and 5, and the even slow
factors from 6 up to `2 * 0x10001`. -/
def Legal2090 (d : ℕ) : Prop :=
  d = 1 ∨ d = 2 ∨ d = 5 ∨ (6 ≤ d ∧ d % 2 = 0 ∧ d ≤ 131074)

set_option maxRecDepth 4000 in
/-- C2 counterexample: `calculateTriggerPoint` is not an involution — at
the 16-bit input 4 it maps 4 to 7 and 7 to 5, so applying it twice gives
5, not 4. -/
theorem calculateTriggerPoint_not_involution :
    4 < 65536 ∧ calculateTriggerPoint (calculateTriggerPoint 4) ≠ 4 := by
  decide

/-- C6: on the DSO-6022BE in normal (non-fast-rate) mode, a successful
bulk read of 100 bytes makes `getSamples` compute
`sampleCount = 100 / 2 - (0x410 + 0x3F0)` in 32-bit unsigned arithmetic,
which wraps to 4294965298 — vastly more than the received data — instead
of being truncated to the received byte count. -/
theorem getSamples_6022_short_read_underflow :
    decodedSampleCount true false 8 100 = 4294965298 ∧
    100 < decodedSampleCount true false 8 100 := by
  decide

/-- C8: on the DSO-2090 with buffer divider 1 (record length id 1), the
solver at target 33.3 MHz with `maximum=false` sees the continuous ideal
downsampler `d* = 500/333 ≈ 1.5`, snaps it down to the integer
downsampler 1 and reports 50 MHz. -/
theorem getBestSamplerate_2090_33MHz :
    (3 / 2 : ℚ) ≤ spec2090.single.base / spec2090.bufferDividers 1 / 33300000 ∧
    spec2090.single.base / spec2090.bufferDividers 1 / 33300000 < 151 / 100 ∧
    getBestSamplerate spec2090 1 33300000 false false = (50000000, 1) := by
  refine ⟨?_, ?_, ?_⟩
  · norm_num [spec2090, single2090, bufferDividers2090]
  · norm_num [spec2090, single2090, bufferDividers2090]
  · norm_num [getBestSamplerate, snapDownsampler, spec2090, single2090,
      multi2090, bufferDividers2090]

/-- `updateSamplerate` leaves the channel count untouched. -/
theorem updateSamplerate2090_usedChannels (st : ControlState) (d : ℕ) (fr : Bool) :
    (updateSamplerate2090 st d fr).usedChannels = st.usedChannels := rfl

/-- The encoder's fast-rate field is hard-coded to `false` by
`setFastRate(false /*fastRate*/)`. -/
theorem updateSamplerate2090_cmdFastRate_false (st : ControlState) (d : ℕ) (fr : Bool) :
    (updateSamplerate2090 st d fr).cmdFastRate = false := rfl

/-- After `updateSamplerate`, the limits pointer agrees with the `fastRate`
argument: it is flipped exactly when the mode changed. -/
theorem updateSamplerate2090_limitsMode (st : ControlState) (d : ℕ) (fr : Bool) :
    (updateSamplerate2090 st d fr).limitsMode
      = if fr then RateMode.multi else RateMode.single := by
  show (if ¬(fr = true ↔ st.limitsMode = RateMode.multi) then
      (if fr then RateMode.multi else RateMode.single)
    else st.limitsMode) = if fr then RateMode.multi else RateMode.single
  by_cases h : fr = true ↔ st.limitsMode = RateMode.multi
  · rw [if_neg (not_not_intro h)]
    cases fr with
    | false =>
      simp only [Bool.false_eq_true, false_iff] at h
      cases hm : st.limitsMode with
      | single => simp
      | multi => exact absurd hm h
    | true =>
      simp [h.mp rfl]
  · rw [if_pos h]

/-- C9: on the DSO-2090 family (`BULK_SETTRIGGERANDSAMPLERATE`),
`updateSamplerate` always encodes the wire fast-rate flag as `false`
regardless of its `fastRate` argument, yet still switches
`settings.samplerate.limits` to the multi limits exactly when `fastRate`
is true — so fast rate is never actually requested from the hardware. -/
theorem updateSamplerate2090_never_requests_fastRate
    (st : ControlState) (d : ℕ) (fr : Bool) :
    (updateSamplerate2090 st d fr).cmdFastRate = false ∧
    (updateSamplerate2090 st d fr).limitsMode
      = (if fr then RateMode.multi else RateMode.single) :=
  ⟨updateSamplerate2090_cmdFastRate_false st d fr,
    updateSamplerate2090_limitsMode st d fr⟩

/-- `setSamplerate` keeps the channel count. -/
theorem setSamplerate2090_usedChannels (st : ControlState) (hz : ℚ) :
    (setSamplerate2090 st hz).usedChannels = st.usedChannels := by
  unfold setSamplerate2090
  rw [updateSamplerate2090_usedChannels]
  by_cases h : hz = 0 <;> simp [h]

/-- `setRecordTime` keeps the channel count. -/
theorem setRecordTime2090_usedChannels (st : ControlState) (t : ℚ) :
    (setRecordTime2090 st t).usedChannels = st.usedChannels := by
  unfold setRecordTime2090
  rw [updateSamplerate2090_usedChannels]
  by_cases h : t = 0 <;> simp [h]

/-- If `setSamplerate` left the multi limits selected, its fast-rate flag
was true, which required at most one used channel. -/
theorem setSamplerate2090_multi_imp (st : ControlState) (hz : ℚ) :
    (setSamplerate2090 st hz).limitsMode = RateMode.multi → st.usedChannels ≤ 1 := by
  intro h
  unfold setSamplerate2090 at h
  rw [updateSamplerate2090_limitsMode] at h
  rcases hd : decide ((if hz = 0 then st
      else { st with targetSamplerate := hz, targetSamplerateSet := true }).usedChannels ≤ 1 ∧
      single2090.max / bufferDividers2090 (if hz = 0 then st
      else { st with targetSamplerate := hz, targetSamplerateSet := true }).recordLengthId
        < (if hz = 0 then st.targetSamplerate else hz)) with hb | hb
  · rw [hd] at h
    simp at h
  · have := of_decide_eq_true hd
    by_cases h0 : hz = 0 <;> simpa [h0] using this.1

/-- If `setRecordTime` left the multi limits selected, its fast-rate flag
was true, which required at most one used channel. -/
theorem setRecordTime2090_multi_imp (st : ControlState) (t : ℚ) :
    (setRecordTime2090 st t).limitsMode = RateMode.multi → st.usedChannels ≤ 1 := by
  intro h
  unfold setRecordTime2090 at h
  rw [updateSamplerate2090_limitsMode] at h
  rcases hd : decide ((if t = 0 then st
      else { st with targetDuration := t, targetSamplerateSet := false }).usedChannels ≤ 1 ∧
      multi2090.base / bufferDividers2090 (if t = 0 then st
      else { st with targetDuration := t, targetSamplerateSet := false }).recordLengthId
        ≤ (single2090.recordLengths (if t = 0 then st
          else { st with targetDuration := t, targetSamplerateSet := false }).recordLengthId : ℚ)
          / (if t = 0 then st.targetDuration else t)) with hb | hb
  · rw [hd] at h
    simp at h
  · have := of_decide_eq_true hd
    by_cases h0 : t = 0 <;> simpa [h0] using this.1

/-- C1 amended: the invariant `limits = multi → usedChannels ≤ 1` holds
immediately after any `setSamplerate` or `setRecordTime` call (the only
modelled operations that switch the limits pointer), because their
fast-rate flag is computed from `usedChannels ≤ 1`; it is *not* an
invariant of all reachable states, since `setChannelUsed` can then raise
the channel count without touching the limits pointer. -/
theorem fastRate_limits_after_rate_setters (st : ControlState) (hz t : ℚ) :
    ((setSamplerate2090 st hz).limitsMode = RateMode.multi →
      (setSamplerate2090 st hz).usedChannels ≤ 1) ∧
    ((setRecordTime2090 st t).limitsMode = RateMode.multi →
      (setRecordTime2090 st t).usedChannels ≤ 1) := by
  constructor
  · intro h
    rw [setSamplerate2090_usedChannels]
    exact setSamplerate2090_multi_imp st hz h
  · intro h
    rw [setRecordTime2090_usedChannels]
    exact setRecordTime2090_multi_imp st t h

/-- C1 counterexample: from the constructor's state, enable CH1, request
60 MHz (beyond the 50 MHz single-channel maximum, so fast rate engages and
the limits pointer moves to multi), then enable CH2 as well:
`setChannelUsed` recounts `usedChannels` to 2 but leaves the limits
pointer on the multi limits, so the claimed invariant fails in a reachable
state. -/
theorem fastRate_invariant_counterexample :
    Reachable2090 (setChannelUsed2090
      (setSamplerate2090 (setChannelUsed2090 initState2090 0 true).2 60000000)
      1 true).2 ∧
    (setChannelUsed2090
      (setSamplerate2090 (setChannelUsed2090 initState2090 0 true).2 60000000)
      1 true).2.limitsMode = RateMode.multi ∧
    (setChannelUsed2090
      (setSamplerate2090 (setChannelUsed2090 initState2090 0 true).2 60000000)
      1 true).2.usedChannels = 2 := by
  refine ⟨?_, ?_, ?_⟩
  · exact Reachable2090.channelUsed 1 true
      (Reachable2090.samplerate 60000000
        (Reachable2090.channelUsed 0 true Reachable2090.init))
  · norm_num [setChannelUsed2090, setSamplerate2090, updateSamplerate2090,
      getBestSamplerate, snapDownsampler, spec2090, single2090, multi2090,
      bufferDividers2090, initState2090, HANTEK_CHANNELS, limits2090]
  · norm_num [setChannelUsed2090, setSamplerate2090, updateSamplerate2090,
      getBestSamplerate, snapDownsampler, spec2090, single2090, multi2090,
      bufferDividers2090, initState2090, HANTEK_CHANNELS, limits2090]

/-- C1 amended, witness: at the concrete state with only CH1 enabled and a
60 MHz request, the setter does select the multi limits and the theorem
yields `usedChannels ≤ 1`. -/
theorem fastRate_limits_after_rate_setters_witness :
    (setSamplerate2090 (setChannelUsed2090 initState2090 0 true).2
      60000000).usedChannels ≤ 1 :=
  (fastRate_limits_after_rate_setters
      (setChannelUsed2090 initState2090 0 true).2 60000000 0).1
    (by
      norm_num [setChannelUsed2090, setSamplerate2090, updateSamplerate2090,
        getBestSamplerate, snapDownsampler, spec2090, single2090, multi2090,
        bufferDividers2090, initState2090, HANTEK_CHANNELS, limits2090])

/-- The quantised value re-read: for calibration bounds `min < max` and a
fraction in `[0,1]`, re-quantising the stored `offsetReal` reproduces the
same `offsetValue`. -/
theorem quantizeOffset_offsetRealOf (minimum maximum : ℕ) (f : ℚ)
    (hlt : minimum < maximum) :
    quantizeOffset minimum maximum
        (offsetRealOf minimum maximum (quantizeOffset minimum maximum f))
      = quantizeOffset minimum maximum f := by
  have hne : (maximum : ℚ) - (minimum : ℚ) ≠ 0 := by
    have : (minimum : ℚ) < (maximum : ℚ) := by exact_mod_cast hlt
    linarith
  unfold quantizeOffset offsetRealOf
  rw [div_mul_cancel₀ _ hne]
  have harg :
      ((((⌊f * ((maximum : ℚ) - (minimum : ℚ)) + (minimum : ℚ) + 1 / 2⌋).toNat : ℕ) : ℚ)
          - (minimum : ℚ)) + (minimum : ℚ) + 1 / 2
        = (((⌊f * ((maximum : ℚ) - (minimum : ℚ)) + (minimum : ℚ) + 1 / 2⌋).toNat : ℕ) : ℚ)
          + 1 / 2 := by
    ring
  rw [harg, Int.floor_nat_add]
  have h2 : ⌊(1 / 2 : ℚ)⌋ = 0 := by norm_num
  rw [h2, add_zero, Int.toNat_natCast]

/-- C7: offset quantisation is idempotent.  For every fraction
`f ∈ [0, 1]` and decoded calibration bounds `min < max` (the per-channel,
per-gain entries of the offset-limit table), feeding the stored
`offsetReal` back into `setOffset` stores the same quantised `offsetValue`
and the same `offsetReal`. -/
theorem setOffset_requantize_idempotent (minimum maximum : ℕ) (f : ℚ)
    (hlt : minimum < maximum) (_h0 : 0 ≤ f) (_h1 : f ≤ 1) :
    setOffsetStored minimum maximum ((setOffsetStored minimum maximum f).2)
      = setOffsetStored minimum maximum f := by
  unfold setOffsetStored
  rw [quantizeOffset_offsetRealOf minimum maximum f hlt]

/-- C7 witness: with bounds (10, 20) and `f = 1/3`, the first call stores
`offsetValue = 13`, `offsetReal = 3/10`, and re-applying the read-back
stores the same pair. -/
theorem setOffset_requantize_idempotent_witness :
    setOffsetStored 10 20 ((setOffsetStored 10 20 (1 / 3)).2)
        = setOffsetStored 10 20 (1 / 3) ∧
    setOffsetStored 10 20 (1 / 3) = (13, 3 / 10) := by
  constructor
  · exact setOffset_requantize_idempotent 10 20 (1 / 3) (by norm_num)
      (by norm_num) (by norm_num)
  · have ht : Int.toNat 13 = 13 := rfl
    norm_num [setOffsetStored, quantizeOffset, offsetRealOf, ht]

set_option maxRecDepth 8000 in
/-- Every value the 2090 arm of `snapDownsampler` can produce is an
integer that is at most 2, equal to 5, or even and at least 6. -/
theorem snap2090_shape (mx : Bool) (x : ℚ) :
    ∃ z : ℤ, snapDownsampler SamplerateCmdFamily.settriggerandsamplerate mx x
        = some ((z : ℚ)) ∧ (z ≤ 2 ∨ z = 5 ∨ (6 ≤ z ∧ 2 ∣ z)) := by
  unfold snapDownsampler
  cases mx with
  | false =>
    by_cases h6 : x < 6
    · by_cases h25 : 2 < (⌊x⌋ : ℚ) ∧ (⌊x⌋ : ℚ) < 5
      · exact ⟨2, by simp [h6, h25], Or.inl le_rfl⟩
      · refine ⟨⌊x⌋, by simp [h6, h25], ?_⟩
        rcases not_and_or.mp h25 with h | h
        · exact Or.inl (by exact_mod_cast not_lt.mp h)
        · have h5 : (5 : ℚ) ≤ (⌊x⌋ : ℚ) := not_lt.mp h
          have h5' : (5 : ℤ) ≤ ⌊x⌋ := by exact_mod_cast h5
          have hq : (⌊x⌋ : ℚ) < 6 := lt_of_le_of_lt (Int.floor_le x) h6
          have hlt : ⌊x⌋ < 6 := by exact_mod_cast hq
          exact Or.inr (Or.inl (by omega))
    · have hcast : ((⌊x / 2⌋ : ℚ) * 2) = (((⌊x / 2⌋ * 2 : ℤ)) : ℚ) := by push_cast; ring
      have hge : (6 : ℤ) ≤ ⌊x / 2⌋ * 2 := by
        have : (3 : ℚ) ≤ x / 2 := by linarith [not_lt.mp h6]
        have h3 : (3 : ℤ) ≤ ⌊x / 2⌋ := by
          have := Int.le_floor.mpr (by exact_mod_cast this : ((3 : ℤ) : ℚ) ≤ x / 2)
          exact this
        omega
      by_cases hcap : 2 * 0x10001 < (⌊x / 2⌋ : ℚ) * 2
      · refine ⟨131074, ?_, Or.inr (Or.inr (by norm_num))⟩
        simp only [Bool.false_eq_true, false_and, false_or, true_and,
          eq_self_iff_true, if_false, if_true, ite_true, ite_false]
        rw [if_neg h6, if_pos hcap]
        norm_num
      · refine ⟨⌊x / 2⌋ * 2, ?_, Or.inr (Or.inr ⟨hge, dvd_mul_left 2 ⌊x / 2⌋⟩)⟩
        simp only [Bool.false_eq_true, false_and, false_or, true_and,
          eq_self_iff_true, if_false, if_true, ite_true, ite_false]
        rw [if_neg h6, if_neg hcap, hcast]
  | true =>
    by_cases h5 : x ≤ 5
    · by_cases h2 : 2 < (⌈x⌉ : ℚ)
      · exact ⟨5, by simp [h5, h2], Or.inr (Or.inl rfl)⟩
      · exact ⟨⌈x⌉, by simp [h5, h2], Or.inl (by exact_mod_cast not_lt.mp h2)⟩
    · have hcast : ((⌈x / 2⌉ : ℚ) * 2) = (((⌈x / 2⌉ * 2 : ℤ)) : ℚ) := by push_cast; ring
      have hge : (6 : ℤ) ≤ ⌈x / 2⌉ * 2 := by
        have hx2 : (5 / 2 : ℚ) < x / 2 := by linarith [not_le.mp h5]
        have h3 : (3 : ℤ) ≤ ⌈x / 2⌉ := by
          have h52 : (2 : ℤ) < ⌈x / 2⌉ := by
            have := Int.lt_ceil.mpr (lt_trans (by norm_num : ((2 : ℤ) : ℚ) < 5 / 2) hx2)
            exact this
          omega
        omega
      by_cases hcap : 2 * 0x10001 < (⌈x / 2⌉ : ℚ) * 2
      · refine ⟨131074, ?_, Or.inr (Or.inr (by norm_num))⟩
        simp only [Bool.true_eq_false, false_and, or_false, true_and,
          eq_self_iff_true, if_false, if_true, ite_true, ite_false]
        rw [if_neg h5, if_pos hcap]
        norm_num
      · refine ⟨⌈x / 2⌉ * 2, ?_, Or.inr (Or.inr ⟨hge, dvd_mul_left 2 ⌈x / 2⌉⟩)⟩
        simp only [Bool.true_eq_false, false_and, or_false, true_and,
          eq_self_iff_true, if_false, if_true, ite_true, ite_false]
        rw [if_neg h5, if_neg hcap, hcast]

/-- After the `maxDownsampler` clamp and the unsigned cast, a snapped value
of the shape above is never 3 or 4. -/
theorem clamp_toNat_ne_3_4 (m : ℕ) (hm3 : m ≠ 3) (hm4 : m ≠ 4) (z : ℤ)
    (hcase : z ≤ 2 ∨ z = 5 ∨ (6 ≤ z ∧ 2 ∣ z)) :
    (⌊if (m : ℚ) < ((z : ℤ) : ℚ) then (m : ℚ) else ((z : ℤ) : ℚ)⌋).toNat ≠ 3 ∧
    (⌊if (m : ℚ) < ((z : ℤ) : ℚ) then (m : ℚ) else ((z : ℤ) : ℚ)⌋).toNat ≠ 4 := by
  by_cases h : (m : ℚ) < ((z : ℤ) : ℚ)
  · rw [if_pos h, Int.floor_natCast]
    constructor <;> omega
  · rw [if_neg h, Int.floor_intCast]
    rcases hcase with h | h | h
    · constructor <;> omega
    · constructor <;> omega
    · obtain ⟨h6, k, hk⟩ := h
      constructor <;> omega

/-- C5: for the DSO-2090 command family, `getBestSamplerate` never writes
3 or 4 into its downsampler output, for every positive target samplerate,
every record-length id, both fast-rate flags and both rounding
directions. -/
theorem getBestSamplerate_2090_no_downsampler_3_4 (recordLengthId : ℕ)
    (samplerate : ℚ) (fastRate maximum : Bool) (hs : 0 < samplerate) :
    (getBestSamplerate spec2090 recordLengthId samplerate fastRate maximum).2 ≠ 3 ∧
    (getBestSamplerate spec2090 recordLengthId samplerate fastRate maximum).2 ≠ 4 := by
  obtain ⟨z, hsnap, hcase⟩ := snap2090_shape maximum
    ((if fastRate then spec2090.multi else spec2090.single).base /
      spec2090.bufferDividers recordLengthId / samplerate)
  have hm : (if fastRate then spec2090.multi else spec2090.single).maxDownsampler
      = 131072 := by
    cases fastRate <;> rfl
  unfold getBestSamplerate
  rw [if_neg (not_le.mpr hs)]
  simp only []
  rw [show spec2090.samplerateCmd = SamplerateCmdFamily.settriggerandsamplerate from rfl,
    hsnap]
  by_cases hfirst :
      (if fastRate then spec2090.multi else spec2090.single).base /
          spec2090.bufferDividers recordLengthId / samplerate < 1 ∧
        (samplerate ≤ (if fastRate then spec2090.multi else spec2090.single).max /
            spec2090.bufferDividers recordLengthId ∨ maximum = false)
  · rw [if_pos hfirst]
    constructor <;> norm_num
  · rw [if_neg hfirst]
    simp only [hm]
    exact clamp_toNat_ne_3_4 131072 (by norm_num) (by norm_num) z hcase

/-- C5 witness: at a concrete input (record length id 1, target 7 MHz on
the single limits, `maximum=true`) the solver output is downsampler 8 —
and the theorem applies, certifying it is neither 3 nor 4. -/
theorem getBestSamplerate_2090_no_downsampler_3_4_witness :
    (getBestSamplerate spec2090 1 7000000 false true).2 = 8 ∧
    (getBestSamplerate spec2090 1 7000000 false true).2 ≠ 3 ∧
    (getBestSamplerate spec2090 1 7000000 false true).2 ≠ 4 := by
  constructor
  · have hc : ⌈(25 / 7 : ℚ)⌉ = 4 := by
      rw [Int.ceil_eq_iff]
      norm_num
    norm_num [getBestSamplerate, snapDownsampler, spec2090, single2090,
      multi2090, bufferDividers2090, hc]
    decide
  · exact getBestSamplerate_2090_no_downsampler_3_4 1 7000000 false true
      (by norm_num)

/-- The conversion loop only writes below the running index: its length is
preserved and entries at or beyond `realPosition + n` keep their old
value. -/
theorem normalLoopGo_preserves (data : List ℕ) (totalSampleCount : ℕ)
    (voltageLimit gainStep offsetReal : ℚ) :
    ∀ (n realPosition bufferPosition : ℕ) (acc : List ℚ),
      (normalLoopGo data totalSampleCount voltageLimit gainStep offsetReal n
          realPosition bufferPosition acc).length = acc.length ∧
      ∀ i, realPosition + n ≤ i →
        (normalLoopGo data totalSampleCount voltageLimit gainStep offsetReal n
            realPosition bufferPosition acc).getD i 0 = acc.getD i 0 := by
  intro n
  induction n with
  | zero =>
    intro realPosition bufferPosition acc
    exact ⟨rfl, fun i _ => rfl⟩
  | succ m ih =>
    intro realPosition bufferPosition acc
    rw [normalLoopGo]
    obtain ⟨hlen, hget⟩ := ih (realPosition + 1)
      ((if totalSampleCount ≤ bufferPosition then bufferPosition % totalSampleCount
        else bufferPosition) + HANTEK_CHANNELS)
      (acc.set realPosition
        (convertSample8
          (data.getD
            (if totalSampleCount ≤ bufferPosition then bufferPosition % totalSampleCount
             else bufferPosition) 0) voltageLimit gainStep offsetReal))
    constructor
    · rw [hlen, List.length_set]
    · intro i hi
      rw [hget i (by omega)]
      have hne : realPosition ≠ i := by omega
      simp [List.getD, List.getElem?_set_ne hne]

/-- C10: in normal-mode decode, a used channel's result vector is resized
only when smaller than the new sample count; it never shrinks, so after a
frame with fewer samples the vector keeps its old length and the trailing
entries still hold the samples of the earlier frame (which
`getLastSamples` then exposes). -/
theorem convertChannelNormal_never_shrinks (data : List ℕ)
    (totalSampleCount sampleCount triggerPoint channel : ℕ)
    (voltageLimit gainStep offsetReal : ℚ) (old : List ℚ)
    (h : sampleCount ≤ old.length) :
    (convertChannelNormal data totalSampleCount sampleCount triggerPoint channel
        voltageLimit gainStep offsetReal old).length = old.length ∧
    ∀ i, sampleCount ≤ i →
      (convertChannelNormal data totalSampleCount sampleCount triggerPoint channel
          voltageLimit gainStep offsetReal old).getD i 0 = old.getD i 0 := by
  unfold convertChannelNormal
  rw [if_neg (not_lt.mpr h)]
  obtain ⟨hlen, hget⟩ := normalLoopGo_preserves data totalSampleCount
    voltageLimit gainStep offsetReal sampleCount 0
    (triggerPoint * 2 + (HANTEK_CHANNELS - 1 - channel)) old
  exact ⟨hlen, fun i hi => hget i (by omega)⟩

/-- C10 witness: decoding a 2-sample frame into a 4-entry vector keeps
length 4 and keeps the old entry at index 3. -/
theorem convertChannelNormal_never_shrinks_witness :
    (convertChannelNormal [7, 7, 7, 7] 4 2 0 0 1 1 0 [10, 11, 12, 13]).length = 4 ∧
    (convertChannelNormal [7, 7, 7, 7] 4 2 0 0 1 1 0 [10, 11, 12, 13]).getD 3 0 = 13 := by
  constructor
  · exact (convertChannelNormal_never_shrinks [7, 7, 7, 7] 4 2 0 0 1 1 0
      [10, 11, 12, 13] (by norm_num)).1
  · exact (convertChannelNormal_never_shrinks [7, 7, 7, 7] 4 2 0 0 1 1 0
      [10, 11, 12, 13] (by norm_num)).2 3 (by norm_num)

/-- A concrete DSO-2090 command store: the seven bulk commands the
constructor instantiates (opcodes 0–6) exist, the rest are null; the
control-code table has its two initialised slots (`SETOFFSET`,
`SETRELAYS`; their numeric opcode values live in the missing header and
are placeholders here — no claim path depends on them). -/
def cmdState2090 : CmdState where
  bulkExists :=
    [true, true, true, true, true, true, true, false, false, false, false, false]
  bulkPending := List.replicate 12 false
  bulkData := List.replicate 12 []
  controlCodes := [36, 37]
  controlPending := List.replicate 6 false
  controlData := List.replicate 6 []

/-- C4 counterexample: the malformed input `"foo"` (token list not
starting with `send`) falls through to the final `return
Dso::ERROR_UNSUPPORTED;`, not to `ERROR_PARAMETER` as claimed. -/
theorem stringCommand_malformed_not_parameter :
    stringCommand cmdState2090 "foo"
        = some (ErrorCode.ERROR_UNSUPPORTED, cmdState2090) ∧
    ErrorCode.ERROR_UNSUPPORTED ≠ ErrorCode.ERROR_PARAMETER := by
  decide

/-- C4 amended: `stringCommand` returns `ERROR_PARAMETER` exactly for the
empty token list and for a lone `send`; every other input that is not a
well-formed `send bulk`/`send control` command — and every well-formed one
with an unknown opcode — returns `ERROR_UNSUPPORTED`; in all non-success
cases the command stores are untouched.  (`send bulk`/`send control` with
no third token, and bulk opcodes up to `BULK_COUNT` naming uninstantiated
commands, hit undefined behaviour, modelled as `none`.) -/
theorem stringCommand_error_contract :
    (∀ st : CmdState, stringCommandTokens st [] = some (ErrorCode.ERROR_PARAMETER, st)) ∧
    (∀ st : CmdState,
      stringCommandTokens st ["send"] = some (ErrorCode.ERROR_PARAMETER, st)) ∧
    (∀ (st : CmdState) (t : String) (ts : List String), t ≠ "send" →
      stringCommandTokens st (t :: ts) = some (ErrorCode.ERROR_UNSUPPORTED, st)) ∧
    (∀ (st : CmdState) (sub : String) (rest : List String),
      sub ≠ "bulk" → sub ≠ "control" →
      stringCommandTokens st ("send" :: sub :: rest)
        = some (ErrorCode.ERROR_UNSUPPORTED, st)) ∧
    (∀ (st : CmdState) (tok : String) (rest : List String),
      BULK_COUNT < hexByte tok →
      stringCommandTokens st ("send" :: "bulk" :: tok :: rest)
        = some (ErrorCode.ERROR_UNSUPPORTED, st)) ∧
    (∀ (st : CmdState) (tok : String) (rest : List String),
      st.controlCodes.findIdx? (fun c => c = hexByte tok) = none →
      stringCommandTokens st ("send" :: "control" :: tok :: rest)
        = some (ErrorCode.ERROR_UNSUPPORTED, st)) ∧
    (∀ (st : CmdState) (parts : List String) (e : ErrorCode) (st' : CmdState),
      stringCommandTokens st parts = some (e, st') → e ≠ ErrorCode.ERROR_NONE →
      st' = st) := by
  refine ⟨fun st => rfl, fun st => rfl, ?_, ?_, ?_, ?_, ?_⟩
  · intro st t ts h
    cases ts <;> simp [stringCommandTokens, h]
  · intro st sub rest h1 h2
    cases rest <;> simp [stringCommandTokens, h1, h2]
  · intro st tok rest h
    simp [stringCommandTokens, h]
  · intro st tok rest h
    simp [stringCommandTokens, h]
  · intro st parts e st' hres hne
    cases parts with
    | nil =>
      simp [stringCommandTokens] at hres
      exact hres.2.symm
    | cons head tail =>
      by_cases hh : head = "send"
      · subst hh
        cases tail with
        | nil =>
          simp [stringCommandTokens] at hres
          exact hres.2.symm
        | cons sub rest =>
          by_cases hb : sub = "bulk"
          · subst hb
            cases rest with
            | nil => simp [stringCommandTokens] at hres
            | cons tok rest' =>
              by_cases hc : BULK_COUNT < hexByte tok
              · simp [stringCommandTokens, hc] at hres
                exact hres.2.symm
              · simp [stringCommandTokens, hc] at hres
                exact absurd hres.2.1.symm hne
          · by_cases hctl : sub = "control"
            · subst hctl
              cases rest with
              | nil => simp [stringCommandTokens, hb] at hres
              | cons tok rest' =>
                cases hidx : st.controlCodes.findIdx? (fun c => c = hexByte tok) with
                | none =>
                  simp [stringCommandTokens, hb, hidx] at hres
                  exact hres.2.symm
                | some control =>
                  simp [stringCommandTokens, hb, hidx] at hres
                  exact absurd hres.1.symm hne
            · simp [stringCommandTokens, hb, hctl] at hres
              exact hres.2.symm
      · cases tail <;>
          · simp [stringCommandTokens, hh] at hres
            exact hres.2.symm

/-- C4 amended, witness: the contract applied at concrete inputs — a lone
`send` is a parameter error; `hello world` and `send bulk ff` (opcode
0xff, beyond `BULK_COUNT`) are unsupported and leave the store intact. -/
theorem stringCommand_error_contract_witness :
    stringCommandTokens cmdState2090 ["send"]
        = some (ErrorCode.ERROR_PARAMETER, cmdState2090) ∧
    stringCommandTokens cmdState2090 ["hello", "world"]
        = some (ErrorCode.ERROR_UNSUPPORTED, cmdState2090) ∧
    stringCommandTokens cmdState2090 ["send", "bulk", "ff"]
        = some (ErrorCode.ERROR_UNSUPPORTED, cmdState2090) := by
  refine ⟨stringCommand_error_contract.2.1 cmdState2090, ?_, ?_⟩
  · exact stringCommand_error_contract.2.2.1 cmdState2090 "hello" ["world"]
      (by decide)
  · exact stringCommand_error_contract.2.2.2.2.1 cmdState2090 "ff" []
      (by decide)

/-- Cancellation shuffle for `Nat` xor. -/
theorem xor_cancel_pair (a b m : ℕ) : (a ^^^ m) ^^^ (b ^^^ m) = a ^^^ b := by
  rw [Nat.xor_comm b m, ← Nat.xor_assoc, Nat.xor_assoc a m m, Nat.xor_self,
    Nat.xor_zero]

/-- Moving a mask across a `Nat` xor. -/
theorem xor_mask_swap (a b m : ℕ) : (a ^^^ b) ^^^ m = (a ^^^ m) ^^^ b := by
  rw [Nat.xor_assoc a b m, Nat.xor_comm b m, ← Nat.xor_assoc]

/-- Each iteration of the trigger-point loop is linear over GF(2): xoring
the inputs xors the outputs. -/
theorem triggerPointStep_xor (i u v : ℕ) :
    triggerPointStep (u ^^^ v) i = triggerPointStep u i ^^^ triggerPointStep v i := by
  unfold triggerPointStep
  cases hu : u.testBit i <;> cases hv : v.testBit i <;>
    simp only [Nat.testBit_xor, hu, hv, Bool.xor_false, Bool.false_xor,
      Bool.xor_true, Bool.true_xor, Bool.not_true, Bool.not_false,
      Bool.false_eq_true, Bool.true_eq_false,
      if_true, if_false, ite_true, ite_false] <;>
    first
      | rfl
      | exact Nat.xor_assoc u v (2 ^ i - 1)
      | exact xor_mask_swap u v (2 ^ i - 1)
      | exact (xor_cancel_pair u v (2 ^ i - 1)).symm

/-- The whole loop is linear over GF(2). -/
theorem foldl_triggerPointStep_xor (l : List ℕ) :
    ∀ u v, l.foldl triggerPointStep (u ^^^ v)
      = l.foldl triggerPointStep u ^^^ l.foldl triggerPointStep v := by
  induction l with
  | nil => intro u v; rfl
  | cons a l ih =>
    intro u v
    simp only [List.foldl_cons]
    rw [triggerPointStep_xor]
    exact ih _ _

/-- `calculateTriggerPoint` is linear over GF(2). -/
theorem calculateTriggerPoint_xor (u v : ℕ) :
    calculateTriggerPoint (u ^^^ v)
      = calculateTriggerPoint u ^^^ calculateTriggerPoint v :=
  foldl_triggerPointStep_xor (List.range 32) u v

/-- Right shift distributes over `Nat` xor. -/
theorem shiftRight_xor_distrib (u v n : ℕ) :
    (u ^^^ v) >>> n = (u >>> n) ^^^ (v >>> n) := by
  apply Nat.eq_of_testBit_eq
  intro i
  simp [Nat.testBit_shiftRight, Nat.testBit_xor]

/-- Gray encoding is linear over GF(2). -/
theorem grayEncode_xor (u v : ℕ) :
    grayEncode (u ^^^ v) = grayEncode u ^^^ grayEncode v := by
  unfold grayEncode
  rw [shiftRight_xor_distrib]
  apply Nat.eq_of_testBit_eq
  intro i
  simp only [Nat.testBit_xor]
  cases u.testBit i <;> cases (u >>> 1).testBit i <;> cases v.testBit i <;>
    cases (v >>> 1).testBit i <;> rfl

set_option maxRecDepth 8000 in
/-- On each 16-bit basis vector, the unfold inverts the Gray encoding. -/
theorem calculateTriggerPoint_grayEncode_pow (k : ℕ) (hk : k < 16) :
    calculateTriggerPoint (grayEncode (2 ^ k)) = 2 ^ k := by
  revert hk
  revert k
  decide

set_option maxRecDepth 2000 in
/-- The unfold inverts Gray encoding on every value below `2 ^ n`,
`n ≤ 16`, by peeling the top bit off with linearity. -/
theorem calculateTriggerPoint_grayEncode_aux :
    ∀ n, n ≤ 16 → ∀ x, x < 2 ^ n → calculateTriggerPoint (grayEncode x) = x := by
  intro n
  induction n with
  | zero =>
    intro _ x hx
    interval_cases x
    decide
  | succ m ih =>
    intro hn x hx
    by_cases hlt : x < 2 ^ m
    · exact ih (by omega) x hlt
    · have hge : 2 ^ m ≤ x := not_lt.mp hlt
      have hdiv : x / 2 ^ m = 1 := by
        apply Nat.div_eq_of_lt_le
        · simpa using hge
        · have : x < 2 ^ (m + 1) := hx
          calc x < 2 ^ (m + 1) := this
            _ = 2 * 2 ^ m := by ring
      have hbit : x.testBit m = true := by
        rw [Nat.testBit_to_div_mod, hdiv]
        rfl
      have hrlt : x ^^^ 2 ^ m < 2 ^ m := by
        apply Nat.lt_pow_two_of_testBit
        intro i hi
        rcases eq_or_lt_of_le hi with rfl | hgt
        · simp [Nat.testBit_xor, hbit, Nat.testBit_two_pow_self]
        · have h1 : x.testBit i = false :=
            Nat.testBit_eq_false_of_lt
              (lt_of_lt_of_le hx (Nat.pow_le_pow_right (by norm_num) hgt))
          have h2 : (2 ^ m).testBit i = false :=
            Nat.testBit_two_pow_of_ne (by omega)
          simp [Nat.testBit_xor, h1, h2]
      have hxr : 2 ^ m ^^^ (x ^^^ 2 ^ m) = x := by
        rw [Nat.xor_comm x (2 ^ m), ← Nat.xor_assoc, Nat.xor_self, Nat.zero_xor]
      calc calculateTriggerPoint (grayEncode x)
          = calculateTriggerPoint (grayEncode (2 ^ m ^^^ (x ^^^ 2 ^ m))) := by
            rw [hxr]
        _ = calculateTriggerPoint (grayEncode (2 ^ m))
            ^^^ calculateTriggerPoint (grayEncode (x ^^^ 2 ^ m)) := by
            rw [grayEncode_xor, calculateTriggerPoint_xor]
        _ = 2 ^ m ^^^ (x ^^^ 2 ^ m) := by
            rw [calculateTriggerPoint_grayEncode_pow m (by omega),
              ih (by omega) (x ^^^ 2 ^ m) hrlt]
        _ = x := hxr

/-- C2 amended: the trigger-point bit-unfold is not an involution; it is
the inverse of the binary-reflected Gray encoding.  For every 16-bit `x`,
`calculateTriggerPoint (x ^ (x >> 1)) = x`, so `calculateTriggerPoint` is
a bijection of the 16-bit values with inverse `x ^ (x >> 1)`. -/
theorem calculateTriggerPoint_inverts_grayEncode (x : ℕ) (hx : x < 65536) :
    calculateTriggerPoint (grayEncode x) = x :=
  calculateTriggerPoint_grayEncode_aux 16 le_rfl x (by norm_num at hx ⊢; exact hx)

/-- C2 amended, witness: the unfold recovers 12345 from its Gray code. -/
theorem calculateTriggerPoint_inverts_grayEncode_witness :
    calculateTriggerPoint (grayEncode 12345) = 12345 :=
  calculateTriggerPoint_inverts_grayEncode 12345 (by norm_num)

/-- A legal 2090 downsampler is at least 1. -/
theorem Legal2090_pos (d : ℕ) (h : Legal2090 d) : 1 ≤ d := by
  rcases h with rfl | rfl | rfl | ⟨h6, _, _⟩ <;> omega

/-- For `maximum=true` and an ideal downsampler `x ∈ [1, 131072]`, the 2090
snap picks exactly the smallest legal downsampler that is at least `x`. -/
theorem snap2090_max_spec (x : ℚ) (h1 : 1 ≤ x) (h2 : x ≤ 131072) :
    ∃ d : ℕ, snapDownsampler SamplerateCmdFamily.settriggerandsamplerate true x
        = some ((d : ℕ) : ℚ) ∧
      Legal2090 d ∧ x ≤ (d : ℚ) ∧ (d : ℚ) ≤ 131072 ∧
      (∀ m : ℕ, Legal2090 m → x ≤ (m : ℚ) → d ≤ m) := by
  unfold snapDownsampler
  simp only [eq_self_iff_true, true_and, and_true, Bool.true_eq_false,
    false_and, or_false, if_true, ite_true]
  by_cases hx5 : x ≤ 5
  · have hc1 : (1 : ℤ) ≤ ⌈x⌉ := by
      have := Int.ceil_le_ceil h1
      simpa using this
    have hc5 : ⌈x⌉ ≤ 5 := by
      have := Int.ceil_le_ceil hx5
      simpa using this
    have hQ : ((⌈x⌉.toNat : ℕ) : ℚ) = (⌈x⌉ : ℚ) := by
      rw [← Int.cast_natCast, Int.toNat_of_nonneg (by omega)]
    by_cases hc2 : 2 < (⌈x⌉ : ℚ)
    · refine ⟨5, ?_, Or.inr (Or.inr (Or.inl rfl)), hx5, by norm_num, ?_⟩
      · rw [if_pos hx5, if_pos hc2]
        norm_num
      · intro m hm hxm
        have hx2 : (2 : ℚ) < x := by
          by_contra hle
          have h2' : ⌈x⌉ ≤ 2 := Int.ceil_le.mpr (by push_cast; linarith)
          have : (⌈x⌉ : ℚ) ≤ 2 := by exact_mod_cast h2'
          linarith
        have hm2 : (2 : ℚ) < (m : ℚ) := lt_of_lt_of_le hx2 hxm
        have hm2' : 2 < m := by exact_mod_cast hm2
        rcases hm with rfl | rfl | rfl | ⟨h6, _, _⟩ <;> omega
    · refine ⟨(⌈x⌉).toNat, ?_, ?_, ?_, ?_, ?_⟩
      · rw [if_pos hx5, if_neg hc2, hQ]
      · have hcle : ⌈x⌉ ≤ 2 := by
          have : (⌈x⌉ : ℚ) ≤ 2 := not_lt.mp hc2
          exact_mod_cast this
        have : (⌈x⌉).toNat = 1 ∨ (⌈x⌉).toNat = 2 := by omega
        rcases this with h | h
        · exact Or.inl h
        · exact Or.inr (Or.inl h)
      · rw [hQ]
        exact Int.le_ceil x
      · rw [hQ]
        have : (⌈x⌉ : ℚ) ≤ 2 := not_lt.mp hc2
        linarith
      · intro m hm hxm
        have : ⌈x⌉ ≤ (m : ℤ) := Int.ceil_le.mpr (by exact_mod_cast hxm)
        omega
  · have hx5' : (5 : ℚ) < x := not_le.mp hx5
    have he3 : (3 : ℤ) ≤ ⌈x / 2⌉ := by
      have : (2 : ℤ) < ⌈x / 2⌉ := Int.lt_ceil.mpr (by push_cast; linarith)
      omega
    have heB : ⌈x / 2⌉ ≤ 65536 := Int.ceil_le.mpr (by push_cast; linarith)
    have hQ2 : (((⌈x / 2⌉).toNat : ℕ) : ℚ) = (⌈x / 2⌉ : ℚ) := by
      rw [← Int.cast_natCast, Int.toNat_of_nonneg (by omega)]
    have heBQ : (⌈x / 2⌉ : ℚ) ≤ 65536 := by exact_mod_cast heB
    have heLQ : x / 2 ≤ (⌈x / 2⌉ : ℚ) := Int.le_ceil _
    have hnocap : ¬(2 * 0x10001 < (⌈x / 2⌉ : ℚ) * 2) := by
      linarith
    refine ⟨2 * (⌈x / 2⌉).toNat, ?_, ?_, ?_, ?_, ?_⟩
    · rw [if_neg hx5, if_neg hnocap]
      push_cast [hQ2]
      ring_nf
    · exact Or.inr (Or.inr (Or.inr ⟨by omega, by omega, by omega⟩))
    · push_cast [hQ2]
      linarith
    · push_cast [hQ2]
      linarith
    · intro m hm hxm
      have hm5 : (5 : ℚ) < (m : ℚ) := lt_of_lt_of_le hx5' hxm
      have hm5' : 5 < m := by exact_mod_cast hm5
      rcases hm with rfl | rfl | rfl | ⟨h6, hev, _⟩
      · omega
      · omega
      · omega
      · obtain ⟨k, hk⟩ := Nat.dvd_of_mod_eq_zero hev
        have hek : ⌈x / 2⌉ ≤ (k : ℤ) := by
          apply Int.ceil_le.mpr
          rw [hk] at hxm
          push_cast at hxm ⊢
          linarith
        omega

/-- `getBestSamplerate` on the DSO-2090 at record-length id 1 with
`maximum=true`: when the ideal downsampler `50e6/s` lies in `[1, 131072]`,
the result is the rate `50e6/d` for the smallest legal downsampler `d`
at least as large as the ideal one. -/
theorem getBestSamplerate_2090_max (s : ℚ) (hs : 0 < s)
    (h1 : 1 ≤ 50000000 / s) (h2 : 50000000 / s ≤ 131072) :
    ∃ d : ℕ, getBestSamplerate spec2090 1 s false true
        = (50000000 / ((d : ℕ) : ℚ), d) ∧
      Legal2090 d ∧ 50000000 / s ≤ (d : ℚ) ∧
      (∀ m : ℕ, Legal2090 m → 50000000 / s ≤ (m : ℚ) → d ≤ m) := by
  obtain ⟨d, hsnap, hleg, hxd, hdB, hmin⟩ := snap2090_max_spec (50000000 / s) h1 h2
  refine ⟨d, ?_, hleg, hxd, hmin⟩
  unfold getBestSamplerate
  rw [if_neg (not_le.mpr hs)]
  simp only [spec2090, Bool.false_eq_true, Bool.true_eq_false, if_false,
    ite_false, bufferDividers2090, div_one, single2090, or_false,
    Nat.cast_ofNat]
  rw [if_neg (fun hcon => absurd hcon.1 (not_lt.mpr h1))]
  rw [hsnap]
  dsimp only
  rw [if_neg (not_lt.mpr hdB)]
  rw [Int.floor_natCast, Int.toNat_natCast]

/-- On a legal downsampler and `fastRate=false`, `updateSamplerate` stores
the downsampler unchanged (5 is kept, even values are already even) and
recomputes `current = single.base / divider / downsampler`. -/
theorem updateSamplerate2090_downsampler_current (st : ControlState) (d : ℕ)
    (hd : Legal2090 d) :
    (updateSamplerate2090 st d false).downsampler = d ∧
    (updateSamplerate2090 st d false).current
      = 50000000 / bufferDividers2090 st.recordLengthId / (d : ℚ) := by
  rcases hd with rfl | rfl | rfl | ⟨h6, hev, hle⟩
  · cases hm : st.limitsMode <;>
      simp [updateSamplerate2090, hm, limits2090, single2090, multi2090]
  · cases hm : st.limitsMode <;>
      simp [updateSamplerate2090, hm, limits2090, single2090, multi2090]
  · cases hm : st.limitsMode <;>
      simp [updateSamplerate2090, hm, limits2090, single2090, multi2090]
  · have h5 : ¬(d ≤ 5) := by omega
    have hmod : d - d % 2 = d := by omega
    have hne : ¬(d - d % 2 = 0) := by omega
    have hd0 : ¬(d = 0) := by omega
    cases hm : st.limitsMode <;>
      simp [updateSamplerate2090, hm, limits2090, single2090, multi2090,
        h5, hmod, hne, hd0]

/-- C3 amended: after `setRecordTime(t)` on a connected DSO-2090 at
record-length id 1 (buffer divider 1), with the ideal downsampler
`50e6·t/10240` in `[1, 131072]` (so neither the base-rate branch nor the
`maxDownsampler` clamp applies): the limits stay single (fast rate needs
`maxRate ≥ multi.base/divider`, impossible here), the stored downsampler
is legal, `current = 50e6/downsampler`, the achieved record time
`recordLengths[id]/current` is at least `t` — not at most `t` as claimed,
since the solver runs with `maximum=true` — and no realisable samplerate
above `current` still gives a record time `≥ t`: `current` is the largest
realisable rate whose record time meets `t`. -/
theorem setRecordTime2090_duration_optimal (st : ControlState) (t : ℚ)
    (hid : st.recordLengthId = 1)
    (h1 : 1 ≤ 50000000 * t / 10240)
    (h2 : 50000000 * t / 10240 ≤ 131072) :
    (setRecordTime2090 st t).limitsMode = RateMode.single ∧
    Legal2090 (setRecordTime2090 st t).downsampler ∧
    (setRecordTime2090 st t).current
      = 50000000 / (((setRecordTime2090 st t).downsampler : ℕ) : ℚ) ∧
    t ≤ (10240 : ℚ) / (setRecordTime2090 st t).current ∧
    (∀ m : ℕ, Legal2090 m → t ≤ (10240 : ℚ) * (m : ℚ) / 50000000 →
      (50000000 : ℚ) / (m : ℚ) ≤ (setRecordTime2090 st t).current) := by
  have ht : 0 < t := by linarith
  have htne : t ≠ 0 := ne_of_gt ht
  have hsp : 0 < (10240 : ℚ) / t := by positivity
  have hideal : (50000000 : ℚ) / (10240 / t) = 50000000 * t / 10240 := by
    rw [div_div_eq_mul_div]
  obtain ⟨d, hbest, hleg, hxd, hmin⟩ :=
    getBestSamplerate_2090_max (10240 / t) hsp
      (by rw [hideal]; exact h1) (by rw [hideal]; exact h2)
  have hdpos : 1 ≤ d := Legal2090_pos d hleg
  have hlt : (10240 : ℚ) / t < 100000000 := by
    rw [div_lt_iff₀ ht]
    linarith
  have hst : setRecordTime2090 st t
      = updateSamplerate2090
          { st with targetDuration := t, targetSamplerateSet := false } d false := by
    simp only [setRecordTime2090, if_neg htne, hid, single2090, multi2090,
      bufferDividers2090, div_one, Nat.cast_ofNat]
    rw [show (decide (st.usedChannels ≤ 1 ∧ (100000000 : ℚ) ≤ 10240 / t)) = false by
      simp only [decide_eq_false_iff_not]
      rintro ⟨_, hcon⟩
      linarith]
    rw [hbest]
  rw [hst, hid]
  obtain ⟨hdown, hcur⟩ := updateSamplerate2090_downsampler_current
    { st with targetDuration := t, targetSamplerateSet := false, recordLengthId := 1 } d hleg
  dsimp only at hcur
  simp only [bufferDividers2090, div_one] at hcur
  rw [hideal] at hxd
  refine ⟨?_, ?_, ?_, ?_, ?_⟩
  · rw [updateSamplerate2090_limitsMode]
    rfl
  · rw [hdown]
    exact hleg
  · rw [hdown, hcur]
  · rw [hcur, div_div_eq_mul_div, le_div_iff₀ (by positivity)]
    have hd' : (50000000 : ℚ) * t / 10240 ≤ (d : ℚ) := hxd
    nlinarith
  · intro m hm hmt
    have hmpos : 1 ≤ m := Legal2090_pos m hm
    have hxm : (50000000 : ℚ) / (10240 / t) ≤ (m : ℚ) := by
      rw [hideal]
      have : (50000000 : ℚ) * t ≤ 10240 * (m : ℚ) := by
        calc (50000000 : ℚ) * t
            ≤ 50000000 * ((10240 : ℚ) * (m : ℚ) / 50000000) := by nlinarith
          _ = 10240 * (m : ℚ) := by ring
      linarith
    have hdm : d ≤ m := hmin m hm hxm
    rw [hcur]
    have hdm' : ((d : ℕ) : ℚ) ≤ ((m : ℕ) : ℚ) := by exact_mod_cast hdm
    have hd0 : (0 : ℚ) < ((d : ℕ) : ℚ) := by
      exact_mod_cast Nat.lt_of_lt_of_le Nat.zero_lt_one hdpos
    gcongr

/-- C3 counterexample: with the constructor's state (record length 10240,
divider 1) and `t = 1 ms`, `setRecordTime` selects downsampler 5 and
`current = 10 MHz`, so `recordLengths[id]/current = 1.024 ms > t`: the
claimed `recordLengths[id]/current ≤ t` fails (the solver is called with
`maximum=true`, bounding the samplerate, hence the duration from below). -/
theorem setRecordTime2090_counterexample :
    (setRecordTime2090 initState2090 (1 / 1000)).limitsMode = RateMode.single ∧
    (setRecordTime2090 initState2090 (1 / 1000)).recordLengthId = 1 ∧
    (setRecordTime2090 initState2090 (1 / 1000)).current = 10000000 ∧
    ¬((single2090.recordLengths 1 : ℚ)
        / (setRecordTime2090 initState2090 (1 / 1000)).current ≤ 1 / 1000) := by
  have hc : ⌈(625 : ℚ) / 128⌉ = 5 := by
    rw [Int.ceil_eq_iff]
    norm_num
  refine ⟨?_, ?_, ?_, ?_⟩
  · norm_num [setRecordTime2090, updateSamplerate2090, getBestSamplerate,
      snapDownsampler, spec2090, single2090, multi2090, bufferDividers2090,
      initState2090, limits2090, hc]
  · norm_num [setRecordTime2090, updateSamplerate2090, getBestSamplerate,
      snapDownsampler, spec2090, single2090, multi2090, bufferDividers2090,
      initState2090, limits2090, hc]
  · norm_num [setRecordTime2090, updateSamplerate2090, getBestSamplerate,
      snapDownsampler, spec2090, single2090, multi2090, bufferDividers2090,
      initState2090, limits2090, hc]
  · norm_num [setRecordTime2090, updateSamplerate2090, getBestSamplerate,
      snapDownsampler, spec2090, single2090, multi2090, bufferDividers2090,
      initState2090, limits2090, hc, UINT_MAX]

/-- C3 amended, witness: at the constructor's state with `t = 1 ms` the
hypotheses hold concretely (ideal downsampler `625/128 ∈ [1, 131072]`),
the achieved record time is at least 1 ms, and the legal downsampler 8
(rate 6.25 MHz, record time 1.6384 ms ≥ 1 ms) indeed yields a rate at most
`current`. -/
theorem setRecordTime2090_duration_optimal_witness :
    (setRecordTime2090 initState2090 (1 / 1000)).limitsMode = RateMode.single ∧
    (1 / 1000 : ℚ) ≤ 10240 / (setRecordTime2090 initState2090 (1 / 1000)).current ∧
    (50000000 : ℚ) / ((8 : ℕ) : ℚ)
      ≤ (setRecordTime2090 initState2090 (1 / 1000)).current := by
  obtain ⟨ha, _, _, hb, hopt⟩ := setRecordTime2090_duration_optimal initState2090
    (1 / 1000) rfl (by norm_num) (by norm_num)
  exact ⟨ha, hb, hopt 8 (Or.inr (Or.inr (Or.inr ⟨by norm_num, by norm_num, by norm_num⟩)))
    (by norm_num)⟩

end HantekModel
